import Mathlib

/-!
# Verification of the gospl_extensions core

Shallow embedding of the two core components of the repository:

* `EnhancedModel` (src/gospl_model_ext/enhanced_model.py): a stepped
  simulation controller over the simulation clock `(tNow, dt, tEnd)`.
  Python floats carrying simulation times are modelled as rationals; the
  opaque single-step primitive (`run_one_step` / `runProcesses`) is a
  parameter that transforms the clock and may raise, and a raised Python
  exception is modelled as an error value carrying the state at the point
  of the raise together with an opaque error code.  Wall-clock elapsed
  times returned by the Python code are not modelled; the multi-step
  drivers instead report the number of completed steps, i.e. the length
  of the list of elapsed times the Python code would return.

* `DataDrivenTectonics` (src/gospl_tectonics_ext/data_driven_tectonics.py):
  k-nearest-neighbour inverse-distance-weighting interpolation of a
  scattered 3-D velocity field onto the mesh nodes, followed by routing
  into one of two advection regimes.  Floats are modelled as reals (the
  Euclidean distances require square roots).  The scipy `cKDTree.query`
  call is modelled by sorting sample indices by Euclidean distance to the
  query point and taking the first `k`; calls to external collaborators
  (`_readAdvectionData`, `getfacevelocity`, `_varAdvector`) are recorded
  in an event log.
-/

namespace Gospl

/-! ## EnhancedModel: the stepped simulation controller -/

/-- The mutable simulation clock `(tNow, dt, tEnd)` of the goSPL model. -/
structure Clock where
  tNow : ℚ
  dt : ℚ
  tEnd : ℚ
  deriving Repr, DecidableEq

/-- Errors raised by the controller: its own `ValueError`s, or an
exception propagated from the wrapped single-step primitive (identified
by an opaque code). -/
inductive StepError where
  | invalidArgument (msg : String)
  | fromPrim (code : ℕ)
  deriving Repr, DecidableEq

/-- The opaque single-step primitive (`run_one_step` / `runProcesses`):
transforms the clock, or raises an opaque error code; since exceptions in
Python leave the mutated object behind, the error also carries the clock
state at the point of the raise. -/
def Prim : Type := Clock → Except (ℕ × Clock) Clock

/-- Clock state handed to the primitive inside `runProcessesForDt`:
`dt := d` and `tEnd := tNow + d` (enhanced_model.py lines 52-54). -/
def stepSetup (s : Clock) (d : ℚ) : Clock := { s with dt := d, tEnd := s.tNow + d }

/-- The `try`/`finally` body of `runProcessesForDt` once the effective
`dt` is known: save `(dt, tEnd)`, set `dt := d` and `tEnd := tNow + d`,
invoke the primitive, and restore the saved fields on both the success
and the error path. -/
def runDtBody (prim : Prim) (s : Clock) (d : ℚ) : Except (StepError × Clock) Clock :=
  let originalDt := s.dt
  let originalTEnd := s.tEnd
  match prim (stepSetup s d) with
  | .ok s2 => .ok { s2 with dt := originalDt, tEnd := originalTEnd }
  | .error (c, s2) => .error (.fromPrim c, { s2 with dt := originalDt, tEnd := originalTEnd })

/-- `EnhancedModel.runProcessesForDt(dt=None)`: validates a supplied `dt`
(`dt <= 0` raises `ValueError("dt must be positive")` before any state
mutation), defaults a missing `dt` to the current `dt` of the simulation
without validation, and runs the save/step/restore body. -/
def runProcessesForDt (prim : Prim) (s : Clock) (dtArg : Option ℚ) :
    Except (StepError × Clock) Clock :=
  match dtArg with
  | some d =>
      if d ≤ 0 then .error (.invalidArgument "dt must be positive", s)
      else runDtBody prim s d
  | none => runDtBody prim s s.dt

/-- Outcome of a multi-step driver: final clock plus the number of
completed steps (the length of the Python list of elapsed times), a
raised error with the clock at that point and the steps completed before
it, or fuel exhaustion (modelling non-termination of the `while` loop in
`runProcessesUntilTime`). -/
inductive RunOutcome where
  | ok (s : Clock) (nsteps : ℕ)
  | raised (e : StepError) (s : Clock) (nsteps : ℕ)
  | fuelOut (s : Clock) (nsteps : ℕ)
  deriving Repr, DecidableEq

/-- The `for step in range(num_steps)` loop of `runProcessesForSteps`:
invoke `runProcessesForDt` with the same `dt` each iteration. -/
def stepsLoop (prim : Prim) (d : ℚ) : ℕ → Clock → ℕ → RunOutcome
  | 0, s, n => .ok s n
  | m + 1, s, n =>
      match runProcessesForDt prim s (some d) with
      | .ok s' => stepsLoop prim d m s' (n + 1)
      | .error (e, s') => .raised e s' n

/-- `EnhancedModel.runProcessesForSteps(num_steps, dt=None)`:
`num_steps <= 0` raises `ValueError`; otherwise the effective `dt` is
resolved once and `runProcessesForDt` is called `num_steps` times. -/
def runProcessesForSteps (prim : Prim) (s : Clock) (numSteps : ℤ) (dtArg : Option ℚ) :
    RunOutcome :=
  if numSteps ≤ 0 then .raised (.invalidArgument "num_steps must be positive") s 0
  else stepsLoop prim (dtArg.getD s.dt) numSteps.toNat s 0

/-- The `while self.tNow < target_time` loop of `runProcessesUntilTime`:
each iteration shortens the step to `min dt (target - tNow)` and invokes
`runProcessesForDt`; `fuel` bounds the number of iterations the model
unfolds (the Python loop has no such bound). -/
def untilLoop (prim : Prim) (target d : ℚ) : ℕ → Clock → ℕ → RunOutcome
  | 0, s, n => if s.tNow < target then .fuelOut s n else .ok s n
  | fuel + 1, s, n =>
      if s.tNow < target then
        match runProcessesForDt prim s (some (min d (target - s.tNow))) with
        | .ok s' => untilLoop prim target d fuel s' (n + 1)
        | .error (e, s') => .raised e s' n
      else .ok s n

/-- `EnhancedModel.runProcessesUntilTime(target_time, dt=None)`:
`target_time < 0` raises `ValueError`; `target_time <= tNow` returns the
empty list immediately; otherwise the shortened-step loop runs until
`tNow >= target_time`. -/
def runProcessesUntilTime (prim : Prim) (s : Clock) (targetTime : ℚ)
    (dtArg : Option ℚ) (fuel : ℕ) : RunOutcome :=
  if targetTime < 0 then .raised (.invalidArgument "target_time must be non-negative") s 0
  else if targetTime ≤ s.tNow then .ok s 0
  else untilLoop prim targetTime (dtArg.getD s.dt) fuel s 0

/-- A single-step primitive that advances `tNow` by exactly the currently
configured `dt`, capped at `tEnd`, and never raises — the behaviour the
spec assumes of the wrapped goSPL stepping primitive. -/
def primExact : Prim := fun s => .ok { s with tNow := min (s.tNow + s.dt) s.tEnd }

/-- A single-step primitive that always raises (code 0) without touching
the clock; used to witness that a driver performs no invocation. -/
def primPoison : Prim := fun s => .error (0, s)

/-! ## DataDrivenTectonics: k-NN inverse-distance-weighting interpolation

Floats are modelled as reals; `scipy.spatial.cKDTree(src_pts).query(q, k)`
is modelled by sorting the sample indices by Euclidean distance to `q`
and taking the first `k` (nondecreasing distances, exactly the query
contract the code relies on). -/

noncomputable section

/-- A 3-D point or vector (one row of an `(N, 3)` numpy array). -/
@[ext]
structure Vec3 where
  x : ℝ
  y : ℝ
  z : ℝ

/-- The zero vector, used as the out-of-range default for row lookups. -/
def v0 : Vec3 := ⟨0, 0, 0⟩

/-- Euclidean distance between two 3-D points, as reported by
`cKDTree.query`. -/
def dist3 (p q : Vec3) : ℝ :=
  Real.sqrt ((p.x - q.x) ^ 2 + (p.y - q.y) ^ 2 + (p.z - q.z) ^ 2)

/-- The `eps = 1.0e-20` of data_driven_tectonics.py line 58. -/
def eps : ℝ := 1 / 10 ^ 20

/-- Row `i` of a list of points (`src_pts[i]`). -/
def ptAt (pts : List Vec3) (i : ℕ) : Vec3 := pts.getD i v0

/-- Comparison ordering sample indices by distance to the query point. -/
def nbrLE (pts : List Vec3) (q : Vec3) (i j : ℕ) : Bool :=
  decide (dist3 (ptAt pts i) q ≤ dist3 (ptAt pts j) q)

/-- Model of `tree.query(q, k=k)` indices: the `k` sample indices nearest
to `q`, in nondecreasing order of Euclidean distance. -/
def kNNIdx (pts : List Vec3) (q : Vec3) (k : ℕ) : List ℕ :=
  ((List.range pts.length).mergeSort (nbrLE pts q)).take k

/-- Model of `tree.query(q, k=k)` distances: the distances matching
`kNNIdx`. -/
def nbrDists (pts : List Vec3) (q : Vec3) (k : ℕ) : List ℝ :=
  (kNNIdx pts q k).map fun i => dist3 (ptAt pts i) q

/-- Weights from neighbour distances (lines 59-62): `1/max(d, eps)` when
`power == 1.0`, else `1/max(d, eps)**power`. -/
def idwWeights (power : ℝ) (ds : List ℝ) : List ℝ :=
  if power = 1 then ds.map fun d => 1 / max d eps
  else ds.map fun d => 1 / (max d eps) ^ power

/-- One component of the weighted blend (lines 64-67):
`Σ w·c / max(Σ w, eps)`; note the `np.maximum(wsum, eps)` guard on the
denominator. -/
def blendComp (ws cs : List ℝ) : ℝ :=
  (List.zipWith (fun w c => w * c) ws cs).sum / max ws.sum eps

/-- Interpolated vector at one query point: the per-row content of lines
51-71, including the exact-coincidence override of lines 69-71 (if the
nearest distance is below `eps` the row of the nearest sample is copied,
bypassing the blend). `k` is the already-clamped neighbour count. -/
def interpAt (pts vals : List Vec3) (k : ℕ) (power : ℝ) (q : Vec3) : Vec3 :=
  let nb := kNNIdx pts q k
  let ds := nbrDists pts q k
  let ws := idwWeights power ds
  if ds.headD 1 < eps then vals.getD (nb.headD 0) v0
  else
    ⟨blendComp ws (nb.map fun i => (vals.getD i v0).x),
     blendComp ws (nb.map fun i => (vals.getD i v0).y),
     blendComp ws (nb.map fun i => (vals.getD i v0).z)⟩

/-- The `k = max(1, min(int(k), nsrc))` clamp of line 48. -/
def clampK (k : ℤ) (n : ℕ) : ℕ := (max 1 (min k (n : ℤ))).toNat

/-- A row of a raw `(N, 3)` array as a `Vec3` (meaningful once the shape
check has passed). -/
def toVec3 (r : List ℝ) : Vec3 := ⟨r.getD 0 0, r.getD 1 0, r.getD 2 0⟩

/-- Shape predicate for a rank-2 array with 3 columns. -/
def rows3 (xss : List (List ℝ)) : Prop := ∀ r ∈ xss, r.length = 3

instance (xss : List (List ℝ)) : Decidable (rows3 xss) :=
  List.decidableBAll _ xss

/-- The mutable `DataDrivenTectonics` host state the method reads and
writes: mesh data (`mCoords`, `locIDs`, `lpoints`, `flatModel`), the
advection regime id, the clock fields it reads, the global elevation
field `hGlobal` (read by the elevation interpolation), and the fields it
assigns (`hdisp`, `upsub`, `plateStep`, `plateTimer`). -/
structure TecState where
  mCoords : List Vec3
  locIDs : List ℕ
  lpoints : ℕ
  advscheme : ℕ
  flatModel : Bool
  dt : ℝ
  tNow : ℝ
  hGlobal : List ℝ
  hdisp : List Vec3
  upsub : List ℝ
  plateStep : Bool
  plateTimer : ℝ

/-- Invocations of the external collaborators, recorded in order. -/
inductive TecCall where
  | readAdvectionData (field : List Vec3) (timer : ℝ)
  | getfacevelocity (npts : ℕ) (buf : List Vec3)
  | varAdvector

/-- Python `ValueError`s raised by the tectonics methods. -/
inductive TecError where
  | valueError (msg : String)
  deriving DecidableEq

/-- The post-validation part of `apply_velocity_data` (lines 50-93):
interpolate at every global mesh node, restrict to the locally-owned
rows (`hdisp`, and its vertical component `upsub`), then route by the
advection regime: regime 0 hands the global field plus the timer
(defaulting to `dt`) to `_readAdvectionData` and sets
`plateStep`/`plateTimer`; otherwise a `(lpoints, 3)` node-velocity
buffer — horizontal components only on a flat mesh, the full rows
otherwise — is handed to `getfacevelocity` and `_varAdvector`. -/
def applyCore (st : TecState) (pts vals : List Vec3) (timer? : Option ℝ) (kc : ℕ)
    (power : ℝ) : TecState × List TecCall :=
  let vinterp := st.mCoords.map (interpAt pts vals kc power)
  let hdisp := st.locIDs.map fun i => vinterp.getD i v0
  let upsub := st.locIDs.map fun i => (vinterp.getD i v0).z
  if st.advscheme = 0 then
    let t := timer?.getD st.dt
    ({ st with hdisp := hdisp, upsub := upsub, plateStep := true,
               plateTimer := st.tNow + t },
     [.readAdvectionData vinterp t])
  else
    let nodeVel :=
      if st.flatModel then
        (List.range st.lpoints).map fun i =>
          ⟨(hdisp.getD i v0).x, (hdisp.getD i v0).y, 0⟩
      else hdisp
    ({ st with hdisp := hdisp, upsub := upsub },
     [.getfacevelocity st.lpoints nodeVel, .varAdvector])

/-- `DataDrivenTectonics.apply_velocity_data(veldata, timer, k, power)`:
the dict-or-attribute `veldata` is modelled as its two optional arrays;
validation (lines 26-47) precedes any state mutation, `k` is clamped,
and the core interpolation-and-routing step runs on success. -/
def apply_velocity_data (st : TecState) (coords? vel? : Option (List (List ℝ)))
    (timer? : Option ℝ) (k : ℤ) (power : ℝ) :
    Except TecError (TecState × List TecCall) :=
  match coords?, vel? with
  | some cr, some vr =>
      if ¬ rows3 cr then .error (.valueError "coords must be of shape (N, 3)")
      else if ¬ rows3 vr then .error (.valueError "vel must be of shape (N, 3)")
      else if cr.length ≠ vr.length then
        .error (.valueError "coords and vel must have the same number of rows")
      else if cr.length = 0 then .error (.valueError "veldata contains no samples")
      else
        .ok (applyCore st (cr.map toVec3) (vr.map toVec3) timer?
          (clampK k cr.length) power)
  | _, _ => .error (.valueError "veldata must contain 'coords' and 'vel' arrays")

/-- Modelled from the spec: `interpolate_elevation_to_points` is bound by
the C interface (gospl_python_interface.py lines 57-61) and exercised by
the tests, but its definition is not among the sources under src/.  Per
spec section 4.1 it is the same k-NN IDW algorithm specialized to scalar
values, with the mesh nodes as samples and the global elevation field as
values; it additionally fails with `InvalidInput` when the query
coordinates are not rank-2 with 3 columns (test message
"src_pts must be of shape (N, 3)") and with `EmptyData` when there are
zero query points (test message "src_pts contains no points"). -/
def interpolate_elevation_to_points (st : TecState) (coords : List (List ℝ))
    (k : ℤ) (power : ℝ) : Except TecError (List ℝ) :=
  if ¬ rows3 coords then .error (.valueError "src_pts must be of shape (N, 3)")
  else if coords.length = 0 then .error (.valueError "src_pts contains no points")
  else
    .ok ((coords.map toVec3).map fun p =>
      (interpAt st.mCoords (st.hGlobal.map fun h => ⟨h, 0, 0⟩)
        (clampK k st.mCoords.length) power p).x)

/-- Follows the wording of the claim (spec section 4.1): the IDW weight of a
neighbour at distance `d`. -/
def specWeight (power d : ℝ) : ℝ :=
  if power = 1 then 1 / max d eps else 1 / (max d eps) ^ power

/-- Follows the wording of the claim: interpolated value as the weighted average
`Σ w_i·v_i / Σ w_i` over neighbour distances and scalar values. -/
def specWeightedAverage (power : ℝ) (ds vs : List ℝ) : ℝ :=
  (List.zipWith (fun d v => specWeight power d * v) ds vs).sum /
    (ds.map (specWeight power)).sum

/-- The amended weighted average: identical except that the denominator
carries the `np.maximum(wsum, eps)` guard of the code. -/
def specGuardedAverage (power : ℝ) (ds vs : List ℝ) : ℝ :=
  (List.zipWith (fun d v => specWeight power d * v) ds vs).sum /
    max (ds.map (specWeight power)).sum eps

/-- A tiny concrete host state on the semi-Lagrangian path (regime 0):
one mesh node at the origin, one locally-owned node, `dt = 2`,
`tNow = 10`. -/
def stSL : TecState :=
  { mCoords := [v0], locIDs := [0], lpoints := 1, advscheme := 0,
    flatModel := true, dt := 2, tNow := 10, hGlobal := [4],
    hdisp := [], upsub := [], plateStep := false, plateTimer := 0 }

/-- The same state at `tNow = 5`, for the explicit-timer instance. -/
def stSL5 : TecState := { stSL with tNow := 5 }

/-- A concrete host state on the Eulerian path (regime 1), flat mesh. -/
def stFlat : TecState := { stSL with advscheme := 1 }

/-- A concrete host state on the Eulerian path, curved mesh. -/
def stCurved : TecState := { stFlat with flatModel := false }

end

/-- Under a primitive that advances `tNow` by exactly the configured `dt`
capped at `tEnd`, the save/step/restore body sends `tNow` to `tNow + d`
and leaves `dt`, `tEnd` unchanged. -/
theorem runDtBody_exact (prim : Prim)
    (hprim : ∀ s, prim s = .ok { s with tNow := min (s.tNow + s.dt) s.tEnd })
    (s : Clock) (d : ℚ) :
    runDtBody prim s d = .ok ⟨s.tNow + d, s.dt, s.tEnd⟩ := by
  unfold runDtBody
  rw [hprim]
  simp [stepSetup]

/-- Under the exact primitive, a positive supplied `dt` makes
`runProcessesForDt` advance `tNow` by `d` with `dt`, `tEnd` restored. -/
theorem runProcessesForDt_exact (prim : Prim)
    (hprim : ∀ s, prim s = .ok { s with tNow := min (s.tNow + s.dt) s.tEnd })
    (s : Clock) (d : ℚ) (hd : 0 < d) :
    runProcessesForDt prim s (some d) = .ok ⟨s.tNow + d, s.dt, s.tEnd⟩ := by
  simp only [runProcessesForDt]
  rw [if_neg (not_le.mpr hd), runDtBody_exact prim hprim]

/-- Claim C1: for every call to `runProcessesForDt` with a valid `dt`
argument, regardless of whether the wrapped single-step primitive
succeeds or raises, the returned (or error-carried) state has `dt` and
`tEnd` equal to their pre-call values, and a raised error propagates
unchanged to the caller. -/
theorem runProcessesForDt_state_restoration (prim : Prim) (s : Clock) (dtArg : Option ℚ)
    (hdt : ∀ d, dtArg = some d → 0 < d) :
    (∀ s2, prim (stepSetup s (dtArg.getD s.dt)) = .ok s2 →
      runProcessesForDt prim s dtArg = .ok { s2 with dt := s.dt, tEnd := s.tEnd }) ∧
    (∀ c s2, prim (stepSetup s (dtArg.getD s.dt)) = .error (c, s2) →
      runProcessesForDt prim s dtArg =
        .error (.fromPrim c, { s2 with dt := s.dt, tEnd := s.tEnd })) := by
  have hbody : ∀ d,
      (∀ s2, prim (stepSetup s d) = .ok s2 →
        runDtBody prim s d = .ok { s2 with dt := s.dt, tEnd := s.tEnd }) ∧
      (∀ c s2, prim (stepSetup s d) = .error (c, s2) →
        runDtBody prim s d = .error (.fromPrim c, { s2 with dt := s.dt, tEnd := s.tEnd })) := by
    intro d
    constructor
    · intro s2 h
      unfold runDtBody
      rw [h]
    · intro c s2 h
      unfold runDtBody
      rw [h]
  cases dtArg with
  | none => simpa [runProcessesForDt] using hbody s.dt
  | some d =>
      have hd : 0 < d := hdt d rfl
      simpa [runProcessesForDt, if_neg (not_le.mpr hd)] using hbody d

/-- Witness for C1: a primitive that raises code 0 without touching the
clock, on the clock `(1, 2, 3)` with requested `dt = 2`; the error
propagates with the original `dt = 2`, `tEnd = 3` restored. -/
theorem runProcessesForDt_state_restoration_witness :
    runProcessesForDt primPoison ⟨1, 2, 3⟩ (some 2) = .error (.fromPrim 0, ⟨1, 2, 3⟩) := by
  have h := (runProcessesForDt_state_restoration primPoison ⟨1, 2, 3⟩ (some 2)
    (by intro d hd; injection hd with h; rw [← h]; norm_num)).2 0 (stepSetup ⟨1, 2, 3⟩ 2) rfl
  simpa [stepSetup] using h

/-- Claim C8: for every non-negative `targetTime` with
`targetTime ≤ tNow`, `runProcessesUntilTime` returns an empty step list
(zero steps), performs zero invocations of the single-step primitive
(the result is the same for every primitive), and does not raise. -/
theorem runProcessesUntilTime_noop (prim : Prim) (s : Clock) (target : ℚ)
    (dtArg : Option ℚ) (fuel : ℕ) (h0 : 0 ≤ target) (hle : target ≤ s.tNow) :
    runProcessesUntilTime prim s target dtArg fuel = .ok s 0 := by
  unfold runProcessesUntilTime
  rw [if_neg (not_lt.mpr h0), if_pos hle]

/-- Witness for C8: `tNow = 5`, `targetTime = 3`; even the
always-raising primitive yields a clean empty result. -/
theorem runProcessesUntilTime_noop_witness :
    runProcessesUntilTime primPoison ⟨5, 1, 9⟩ 3 (some 1) 7 = .ok ⟨5, 1, 9⟩ 0 :=
  runProcessesUntilTime_noop primPoison ⟨5, 1, 9⟩ 3 (some 1) 7 (by norm_num) (by norm_num)

/-- Claim C10: for every `targetTime` strictly greater than `tNow` (and
non-negative, so the upfront target check passes) and supplied `dt ≤ 0`,
`runProcessesUntilTime` raises the inner per-step `dt` validation error
on the first iteration, before any step executes and with the simulation
state unmutated; the step count at that point is zero, and the result is
independent of the primitive and of any fuel bound `≥ 1` (no infinite
loop, and no upfront `dt` check of its own). -/
theorem runProcessesUntilTime_nonpositive_dt (prim : Prim) (s : Clock) (target d : ℚ)
    (fuel : ℕ) (h0 : 0 ≤ target) (ht : s.tNow < target) (hd : d ≤ 0) (hf : 1 ≤ fuel) :
    runProcessesUntilTime prim s target (some d) fuel =
      .raised (.invalidArgument "dt must be positive") s 0 := by
  obtain ⟨f, rfl⟩ : ∃ f, fuel = f + 1 := ⟨fuel - 1, by omega⟩
  unfold runProcessesUntilTime
  rw [if_neg (not_lt.mpr h0), if_neg (not_le.mpr ht)]
  unfold untilLoop
  rw [if_pos ht]
  have hmin : min ((some d).getD s.dt) (target - s.tNow) ≤ 0 :=
    le_trans (min_le_left _ _) hd
  simp only [runProcessesForDt]
  rw [if_pos hmin]

/-- Witness for C10: clock `(2, 5, 9)`, `targetTime = 4`, supplied
`dt = 0`, fuel 1: the inner `dt` validation raises with the state
untouched and zero completed steps. -/
theorem runProcessesUntilTime_nonpositive_dt_witness :
    runProcessesUntilTime primPoison ⟨2, 5, 9⟩ 4 (some 0) 1 =
      .raised (.invalidArgument "dt must be positive") ⟨2, 5, 9⟩ 0 :=
  runProcessesUntilTime_nonpositive_dt primPoison ⟨2, 5, 9⟩ 4 0 1
    (by norm_num) (by norm_num) le_rfl le_rfl

/-- Claim C9: assuming the wrapped single-step primitive advances `tNow`
by exactly the currently configured `dt` (capped at `tEnd`), starting
from `tNow = 0` with simulation `dt = 1000` (and any initial `tEnd`),
one `runProcessesForDt(dt=5000)`, `runProcessesForSteps(5, dt=1000)` and
`runProcessesUntilTime(5000, dt=1000)` all terminate with the same final
`tNow = 5000`. -/
theorem stepping_equivalence (prim : Prim)
    (hprim : ∀ s, prim s = .ok { s with tNow := min (s.tNow + s.dt) s.tEnd }) (e0 : ℚ) :
    ∃ sA sB sC : Clock,
      runProcessesForDt prim ⟨0, 1000, e0⟩ (some 5000) = .ok sA ∧
      runProcessesForSteps prim ⟨0, 1000, e0⟩ 5 (some 1000) = .ok sB 5 ∧
      runProcessesUntilTime prim ⟨0, 1000, e0⟩ 5000 (some 1000) 6 = .ok sC 5 ∧
      sA.tNow = 5000 ∧ sB.tNow = 5000 ∧ sC.tNow = 5000 := by
  have hstep : ∀ t d : ℚ, 0 < d →
      runProcessesForDt prim ⟨t, 1000, e0⟩ (some d) = .ok ⟨t + d, 1000, e0⟩ :=
    fun t d hd => runProcessesForDt_exact prim hprim ⟨t, 1000, e0⟩ d hd
  refine ⟨⟨5000, 1000, e0⟩, ⟨5000, 1000, e0⟩, ⟨5000, 1000, e0⟩, ?_, ?_, ?_, rfl, rfl, rfl⟩
  · simpa using hstep 0 5000 (by norm_num)
  · simp only [runProcessesForSteps]
    rw [if_neg (by norm_num)]
    norm_num [stepsLoop, hstep]
  · simp only [runProcessesUntilTime]
    rw [if_neg (by norm_num), if_neg (by norm_num)]
    norm_num [untilLoop, hstep, min_def]

/-- Witness for C9: the exact-advance primitive with initial `tEnd = 0`;
all three executions end at `tNow = 5000`. -/
theorem stepping_equivalence_witness :
    ∃ sA sB sC : Clock,
      runProcessesForDt primExact ⟨0, 1000, 0⟩ (some 5000) = .ok sA ∧
      runProcessesForSteps primExact ⟨0, 1000, 0⟩ 5 (some 1000) = .ok sB 5 ∧
      runProcessesUntilTime primExact ⟨0, 1000, 0⟩ 5000 (some 1000) 6 = .ok sC 5 ∧
      sA.tNow = 5000 ∧ sB.tNow = 5000 ∧ sC.tNow = 5000 :=
  stepping_equivalence primExact (fun _ => rfl) 0

/-! ## Interpolator lemmas -/

theorem dist3_nonneg (p q : Vec3) : 0 ≤ dist3 p q := Real.sqrt_nonneg _

theorem dist3_self (q : Vec3) : dist3 q q = 0 := by
  simp [dist3]

theorem dist3_eq_zero {p q : Vec3} (h : dist3 p q = 0) : p = q := by
  unfold dist3 at h
  have hsum : (p.x - q.x) ^ 2 + (p.y - q.y) ^ 2 + (p.z - q.z) ^ 2 = 0 := by
    have h0 : (0:ℝ) ≤ (p.x - q.x) ^ 2 + (p.y - q.y) ^ 2 + (p.z - q.z) ^ 2 := by positivity
    rcases h0.lt_or_eq with hlt | he
    · exact absurd h (by positivity)
    · exact he.symm
  have hx : p.x - q.x = 0 := by
    nlinarith [sq_nonneg (p.x - q.x), sq_nonneg (p.y - q.y), sq_nonneg (p.z - q.z)]
  have hy : p.y - q.y = 0 := by
    nlinarith [sq_nonneg (p.x - q.x), sq_nonneg (p.y - q.y), sq_nonneg (p.z - q.z)]
  have hz : p.z - q.z = 0 := by
    nlinarith [sq_nonneg (p.x - q.x), sq_nonneg (p.y - q.y), sq_nonneg (p.z - q.z)]
  ext <;> linarith

theorem nbrLE_trans (pts : List Vec3) (q : Vec3) :
    ∀ a b c : ℕ, nbrLE pts q a b → nbrLE pts q b c → nbrLE pts q a c := by
  intro a b c hab hbc
  simp only [nbrLE, decide_eq_true_eq] at *
  exact le_trans hab hbc

theorem nbrLE_total (pts : List Vec3) (q : Vec3) :
    ∀ a b : ℕ, nbrLE pts q a b || nbrLE pts q b a := by
  intro a b
  simp only [nbrLE, Bool.or_eq_true, decide_eq_true_eq]
  exact le_total _ _

/-- The model of `tree.query` returns a first neighbour, and that
neighbour is a valid sample index minimizing the distance to the query
point over all samples. -/
theorem kNNIdx_head_min (pts : List Vec3) (q : Vec3) (k : ℕ) (hk : 1 ≤ k)
    (hne : pts ≠ []) :
    ∃ i0 rest, kNNIdx pts q k = i0 :: rest ∧ i0 < pts.length ∧
      ∀ j, j < pts.length → dist3 (ptAt pts i0) q ≤ dist3 (ptAt pts j) q := by
  have hperm := List.mergeSort_perm (List.range pts.length) (nbrLE pts q)
  have hsorted : ((List.range pts.length).mergeSort (nbrLE pts q)).Pairwise
      (fun i j => nbrLE pts q i j) :=
    List.sorted_mergeSort (nbrLE_trans pts q) (nbrLE_total pts q)
      (List.range pts.length)
  set l := (List.range pts.length).mergeSort (nbrLE pts q) with hl
  have hlen : l.length = pts.length := by
    rw [hperm.length_eq, List.length_range]
  have hpos : 0 < pts.length := List.length_pos.mpr hne
  obtain ⟨i0, rest, hcons⟩ : ∃ i0 rest, l = i0 :: rest := by
    cases hll : l with
    | nil => rw [hll] at hlen; simp at hlen; omega
    | cons a t => exact ⟨a, t, rfl⟩
  obtain ⟨k', rfl⟩ : ∃ k', k = k' + 1 := ⟨k - 1, by omega⟩
  refine ⟨i0, rest.take k', ?_, ?_, ?_⟩
  · unfold kNNIdx
    rw [← hl, hcons, List.take_succ_cons]
  · have hmem : i0 ∈ l := by rw [hcons]; exact List.mem_cons_self _ _
    simpa using hperm.mem_iff.mp hmem
  · intro j hj
    have hjl : j ∈ l := hperm.mem_iff.mpr (by simpa using hj)
    rw [hcons] at hjl hsorted
    rcases List.mem_cons.mp hjl with rfl | hjr
    · exact le_refl _
    · have := (List.pairwise_cons.mp hsorted).1 j hjr
      simpa [nbrLE, decide_eq_true_eq] using this

/-- Coincidence pass-through at the per-query level: if the query point
equals some sample coordinate, the nearest distance is `0 < eps`, the
override of lines 69-71 fires, and the result is exactly the nearest
sample — which sits at the query point. -/
theorem interpAt_coincident (pts vals : List Vec3) (k : ℕ) (power : ℝ) (q : Vec3)
    (hk : 1 ≤ k) (hmem : q ∈ pts) :
    ∃ i, i < pts.length ∧ ptAt pts i = q ∧
      interpAt pts vals k power q = vals.getD i v0 := by
  have hne : pts ≠ [] := List.ne_nil_of_mem hmem
  obtain ⟨i0, rest, hcons, hi0, hmin⟩ := kNNIdx_head_min pts q k hk hne
  obtain ⟨j, hj, hjq⟩ := List.getElem_of_mem hmem
  have hdj : dist3 (ptAt pts j) q = 0 := by
    rw [ptAt, List.getD_eq_getElem?_getD, List.getElem?_eq_getElem hj,
      Option.getD_some, hjq]
    exact dist3_self q
  have hd0 : dist3 (ptAt pts i0) q = 0 :=
    le_antisymm (by rw [← hdj]; exact hmin j hj) (dist3_nonneg _ _)
  have hpq : ptAt pts i0 = q := dist3_eq_zero hd0
  refine ⟨i0, hi0, hpq, ?_⟩
  unfold interpAt
  rw [nbrDists, hcons]
  simp only [List.map_cons, List.headD_cons, hd0]
  rw [if_pos (by norm_num [eps])]

theorem one_le_clampK (k : ℤ) (n : ℕ) : 1 ≤ clampK k n := by
  unfold clampK
  omega

/-- Claim C3: for every sample set, every `k` (clamped as the operation
does) and every `power`, interpolating at a query point that exactly
equals one of the sample coordinates returns exactly the value of a
sample sitting at that point (the value of the nearest neighbour, assigned
directly by the coincidence rule, bypassing the weighted blend). -/
theorem interp_exact_passthrough (pts vals : List Vec3) (k : ℤ) (power : ℝ)
    (q : Vec3) (hmem : q ∈ pts) :
    ∃ i, i < pts.length ∧ ptAt pts i = q ∧
      interpAt pts vals (clampK k pts.length) power q = vals.getD i v0 :=
  interpAt_coincident pts vals _ power q (one_le_clampK k pts.length) hmem

/-- Witness for C3: two distinct samples, query at the second one,
requested `k = 3` (clamped to 2), `power = 2`. -/
theorem interp_exact_passthrough_witness :
    ∃ i, i < ([⟨1, 2, 3⟩, ⟨4, 5, 6⟩] : List Vec3).length ∧
      ptAt [⟨1, 2, 3⟩, ⟨4, 5, 6⟩] i = ⟨4, 5, 6⟩ ∧
      interpAt [⟨1, 2, 3⟩, ⟨4, 5, 6⟩] [⟨7, 8, 9⟩, ⟨10, 11, 12⟩]
        (clampK 3 ([⟨1, 2, 3⟩, ⟨4, 5, 6⟩] : List Vec3).length) 2 ⟨4, 5, 6⟩ =
        ([⟨7, 8, 9⟩, ⟨10, 11, 12⟩] : List Vec3).getD i v0 :=
  interp_exact_passthrough [⟨1, 2, 3⟩, ⟨4, 5, 6⟩] [⟨7, 8, 9⟩, ⟨10, 11, 12⟩] 3 2
    ⟨4, 5, 6⟩ (List.mem_cons_of_mem _ (List.mem_cons_self _ _))

theorem idwWeights_eq_map_specWeight (power : ℝ) (ds : List ℝ) :
    idwWeights power ds = ds.map (specWeight power) := by
  unfold idwWeights specWeight
  by_cases hp : power = 1
  · simp [hp]
  · simp [hp]

theorem blendComp_eq_specGuarded (power : ℝ) (ds cs : List ℝ) :
    blendComp (idwWeights power ds) cs = specGuardedAverage power ds cs := by
  unfold blendComp specGuardedAverage
  rw [idwWeights_eq_map_specWeight, List.zipWith_map_left]

/-- In the non-coincident case the per-query result is, componentwise,
the `eps`-guarded weighted average of the neighbour values. -/
theorem interpAt_eq_specGuarded (pts vals : List Vec3) (k : ℕ) (power : ℝ)
    (q : Vec3) (hnc : ¬ (nbrDists pts q k).headD 1 < eps) :
    interpAt pts vals k power q =
      ⟨specGuardedAverage power (nbrDists pts q k)
         ((kNNIdx pts q k).map fun i => (vals.getD i v0).x),
       specGuardedAverage power (nbrDists pts q k)
         ((kNNIdx pts q k).map fun i => (vals.getD i v0).y),
       specGuardedAverage power (nbrDists pts q k)
         ((kNNIdx pts q k).map fun i => (vals.getD i v0).z)⟩ := by
  unfold interpAt
  rw [if_neg hnc, blendComp_eq_specGuarded, blendComp_eq_specGuarded,
    blendComp_eq_specGuarded]

/-- Helper evaluation: the single sample sits at Euclidean distance
`10^30` from the origin query point. -/
theorem nbrDists_big : nbrDists [⟨10 ^ 30, 0, 0⟩] v0 1 = [10 ^ 30] := by
  have hknn : kNNIdx [(⟨10 ^ 30, 0, 0⟩ : Vec3)] v0 1 = [0] := by
    unfold kNNIdx
    rw [show List.range ([(⟨10 ^ 30, 0, 0⟩ : Vec3)] : List Vec3).length = [0] from rfl,
      List.mergeSort_singleton]
    rfl
  unfold nbrDists
  rw [hknn]
  simp only [List.map_cons, List.map_nil]
  have hpt : ptAt [(⟨10 ^ 30, 0, 0⟩ : Vec3)] 0 = ⟨10 ^ 30, 0, 0⟩ := rfl
  rw [hpt]
  unfold dist3 v0
  dsimp only
  rw [show ((10:ℝ) ^ 30 - 0) ^ 2 + (0 - 0) ^ 2 + (0 - 0) ^ 2 = (10 ^ 30) ^ 2 by ring]
  rw [Real.sqrt_sq (by positivity)]

/-- Counterexample to claim C4 as stated: one sample at `(10^30, 0, 0)`
with value `(1, 0, 0)`, query at the origin, `k = 1`, `power = 1`.  The
nearest distance `10^30` is not below `eps` (non-coincident case), the
claimed weighted average `Σ w·v / Σ w` equals `1`, but the code divides
by `max(Σ w, eps) = eps` since `Σ w = 10^-30 < 10^-20`, returning
`10^-10 ≠ 1`. -/
theorem interp_weighted_average_counterexample :
    eps ≤ (nbrDists [⟨10 ^ 30, 0, 0⟩] v0 1).headD 1 ∧
    (interpAt [⟨10 ^ 30, 0, 0⟩] [⟨1, 0, 0⟩] 1 1 v0).x = 1 / 10 ^ 10 ∧
    specWeightedAverage 1 (nbrDists [⟨10 ^ 30, 0, 0⟩] v0 1)
      ((kNNIdx [⟨10 ^ 30, 0, 0⟩] v0 1).map fun i =>
        (([⟨1, 0, 0⟩] : List Vec3).getD i v0).x) = 1 ∧
    (interpAt [⟨10 ^ 30, 0, 0⟩] [⟨1, 0, 0⟩] 1 1 v0).x ≠
      specWeightedAverage 1 (nbrDists [⟨10 ^ 30, 0, 0⟩] v0 1)
      ((kNNIdx [⟨10 ^ 30, 0, 0⟩] v0 1).map fun i =>
        (([⟨1, 0, 0⟩] : List Vec3).getD i v0).x) := by
  have hknn : kNNIdx [(⟨10 ^ 30, 0, 0⟩ : Vec3)] v0 1 = [0] := by
    unfold kNNIdx
    rw [show List.range ([(⟨10 ^ 30, 0, 0⟩ : Vec3)] : List Vec3).length = [0] from rfl,
      List.mergeSort_singleton]
    rfl
  have hds := nbrDists_big
  have hmax : max ((10:ℝ) ^ 30) eps = 10 ^ 30 := by
    rw [max_eq_left]
    norm_num [eps]
  have hw : idwWeights 1 [(10:ℝ) ^ 30] = [1 / 10 ^ 30] := by
    simp [idwWeights, hmax]
  have hx : (interpAt [⟨10 ^ 30, 0, 0⟩] [⟨1, 0, 0⟩] 1 1 v0).x = 1 / 10 ^ 10 := by
    unfold interpAt
    rw [hds, hknn]
    rw [if_neg (by norm_num [eps])]
    dsimp only
    rw [hw]
    simp only [List.map_cons, List.map_nil]
    unfold blendComp
    norm_num [eps]
  have hspec : specWeightedAverage 1 (nbrDists [⟨10 ^ 30, 0, 0⟩] v0 1)
      ((kNNIdx [⟨10 ^ 30, 0, 0⟩] v0 1).map fun i =>
        (([⟨1, 0, 0⟩] : List Vec3).getD i v0).x) = 1 := by
    rw [hds, hknn]
    simp only [List.map_cons, List.map_nil]
    unfold specWeightedAverage specWeight
    norm_num [eps]
  refine ⟨by rw [hds]; norm_num [eps], hx, hspec, ?_⟩
  rw [hx, hspec]
  norm_num

/-- Claim C4 as amended: in the non-coincident case (nearest distance not
below `ε`), the interpolated value at a query point equals, componentwise,
`Σ w_i·v_i / max(Σ w_i, ε)` over its `k` (clamped) nearest sample
neighbours, with `w_i = 1 / max(d_i, ε)` when `power = 1` and
`w_i = 1 / max(d_i, ε)^power` otherwise. -/
theorem interp_weighted_average_guarded (pts vals : List Vec3) (k : ℤ)
    (power : ℝ) (q : Vec3)
    (hnc : ¬ (nbrDists pts q (clampK k pts.length)).headD 1 < eps) :
    interpAt pts vals (clampK k pts.length) power q =
      ⟨specGuardedAverage power (nbrDists pts q (clampK k pts.length))
         ((kNNIdx pts q (clampK k pts.length)).map fun i => (vals.getD i v0).x),
       specGuardedAverage power (nbrDists pts q (clampK k pts.length))
         ((kNNIdx pts q (clampK k pts.length)).map fun i => (vals.getD i v0).y),
       specGuardedAverage power (nbrDists pts q (clampK k pts.length))
         ((kNNIdx pts q (clampK k pts.length)).map fun i => (vals.getD i v0).z)⟩ :=
  interpAt_eq_specGuarded pts vals (clampK k pts.length) power q hnc

/-- Witness for the amended C4: one sample at `(3, 0, 0)` (distance 3
from the origin query, so non-coincident), value `(5, 6, 7)`, requested
`k = 2` (clamped to 1), `power = 2`. -/
theorem interp_weighted_average_guarded_witness :
    interpAt [⟨3, 0, 0⟩] [⟨5, 6, 7⟩] (clampK 2 ([⟨3, 0, 0⟩] : List Vec3).length) 2 v0 =
      ⟨specGuardedAverage 2 (nbrDists [⟨3, 0, 0⟩] v0 (clampK 2 ([⟨3, 0, 0⟩] : List Vec3).length))
         ((kNNIdx [⟨3, 0, 0⟩] v0 (clampK 2 ([⟨3, 0, 0⟩] : List Vec3).length)).map fun i =>
           (([⟨5, 6, 7⟩] : List Vec3).getD i v0).x),
       specGuardedAverage 2 (nbrDists [⟨3, 0, 0⟩] v0 (clampK 2 ([⟨3, 0, 0⟩] : List Vec3).length))
         ((kNNIdx [⟨3, 0, 0⟩] v0 (clampK 2 ([⟨3, 0, 0⟩] : List Vec3).length)).map fun i =>
           (([⟨5, 6, 7⟩] : List Vec3).getD i v0).y),
       specGuardedAverage 2 (nbrDists [⟨3, 0, 0⟩] v0 (clampK 2 ([⟨3, 0, 0⟩] : List Vec3).length))
         ((kNNIdx [⟨3, 0, 0⟩] v0 (clampK 2 ([⟨3, 0, 0⟩] : List Vec3).length)).map fun i =>
           (([⟨5, 6, 7⟩] : List Vec3).getD i v0).z)⟩ := by
  apply interp_weighted_average_guarded
  have hknn : kNNIdx [(⟨3, 0, 0⟩ : Vec3)] v0 (clampK 2 1) = [0] := by
    unfold kNNIdx
    rw [show List.range ([(⟨3, 0, 0⟩ : Vec3)] : List Vec3).length = [0] from rfl]
    rw [show clampK 2 1 = 1 from rfl, List.mergeSort_singleton]
    rfl
  have hds : nbrDists [(⟨3, 0, 0⟩ : Vec3)] v0 (clampK 2 1) = [3] := by
    unfold nbrDists
    rw [hknn]
    simp only [List.map_cons, List.map_nil]
    have hpt : ptAt [(⟨3, 0, 0⟩ : Vec3)] 0 = ⟨3, 0, 0⟩ := rfl
    rw [hpt]
    unfold dist3 v0
    dsimp only
    rw [show ((3:ℝ) - 0) ^ 2 + (0 - 0) ^ 2 + (0 - 0) ^ 2 = 3 ^ 2 by ring]
    rw [Real.sqrt_sq (by norm_num)]
  rw [show ([(⟨3, 0, 0⟩ : Vec3)] : List Vec3).length = 1 from rfl, hds]
  norm_num [eps]

/-- Validation passes exactly on well-shaped, equally-sized, nonempty
sample arrays, and then `apply_velocity_data` runs the core with the
clamped `k`. -/
theorem apply_velocity_data_valid (st : TecState) (cr vr : List (List ℝ))
    (timer? : Option ℝ) (k : ℤ) (power : ℝ)
    (hc : rows3 cr) (hv : rows3 vr) (hlen : cr.length = vr.length)
    (hne : cr.length ≠ 0) :
    apply_velocity_data st (some cr) (some vr) timer? k power =
      .ok (applyCore st (cr.map toVec3) (vr.map toVec3) timer?
        (clampK k cr.length) power) := by
  simp only [apply_velocity_data]
  rw [if_neg (not_not_intro hc), if_neg (not_not_intro hv),
    if_neg (not_not_intro hlen), if_neg hne]

/-- Claim C5: for every valid sample set of size `N ≥ 1`, requesting
`k = 0` behaves identically to `k = 1`, requesting `k > N` behaves
identically to `k = N`, and no request raises an error — `k` is silently
clamped to `max(1, min(k, N))`. -/
theorem apply_velocity_data_k_clamping (st : TecState) (cr vr : List (List ℝ))
    (timer? : Option ℝ) (power : ℝ)
    (hc : rows3 cr) (hv : rows3 vr) (hlen : cr.length = vr.length)
    (hne : cr.length ≠ 0) :
    apply_velocity_data st (some cr) (some vr) timer? 0 power =
      apply_velocity_data st (some cr) (some vr) timer? 1 power ∧
    (∀ k : ℤ, (cr.length : ℤ) < k →
      apply_velocity_data st (some cr) (some vr) timer? k power =
        apply_velocity_data st (some cr) (some vr) timer? (cr.length : ℤ) power) ∧
    (∀ k : ℤ, ∃ out,
      apply_velocity_data st (some cr) (some vr) timer? k power = .ok out) := by
  refine ⟨?_, ?_, ?_⟩
  · rw [apply_velocity_data_valid st cr vr timer? 0 power hc hv hlen hne,
      apply_velocity_data_valid st cr vr timer? 1 power hc hv hlen hne,
      show clampK 0 cr.length = clampK 1 cr.length by unfold clampK; omega]
  · intro k hk
    rw [apply_velocity_data_valid st cr vr timer? k power hc hv hlen hne,
      apply_velocity_data_valid st cr vr timer? (cr.length : ℤ) power hc hv hlen hne,
      show clampK k cr.length = clampK (cr.length : ℤ) cr.length by
        unfold clampK; omega]
  · intro k
    exact ⟨_, apply_velocity_data_valid st cr vr timer? k power hc hv hlen hne⟩

/-- Witness for C5: one sample row, on the concrete regime-0 state. -/
theorem apply_velocity_data_k_clamping_witness :
    apply_velocity_data stSL (some [[0, 0, 0]]) (some [[1, 2, 3]]) none 0 1 =
      apply_velocity_data stSL (some [[0, 0, 0]]) (some [[1, 2, 3]]) none 1 1 ∧
    (∀ k : ℤ, (([[(0:ℝ), 0, 0]] : List (List ℝ)).length : ℤ) < k →
      apply_velocity_data stSL (some [[0, 0, 0]]) (some [[1, 2, 3]]) none k 1 =
        apply_velocity_data stSL (some [[0, 0, 0]]) (some [[1, 2, 3]]) none
          (([[(0:ℝ), 0, 0]] : List (List ℝ)).length : ℤ) 1) ∧
    (∀ k : ℤ, ∃ out,
      apply_velocity_data stSL (some [[0, 0, 0]]) (some [[1, 2, 3]]) none k 1 =
        .ok out) :=
  apply_velocity_data_k_clamping stSL [[0, 0, 0]] [[1, 2, 3]] none 1
    (by decide) (by decide) rfl (by decide)

/-- Claim C6: with advection regime 0, `apply_velocity_data` hands the
just-interpolated global field and the timer (defaulting to the
`dt` of the simulation) to `_readAdvectionData` — and nothing else — then
sets `plateStep = true` and `plateTimer = tNow + timer`. -/
theorem apply_velocity_data_semilagrangian (st : TecState) (cr vr : List (List ℝ))
    (timer? : Option ℝ) (k : ℤ) (power : ℝ)
    (hc : rows3 cr) (hv : rows3 vr) (hlen : cr.length = vr.length)
    (hne : cr.length ≠ 0) (hadv : st.advscheme = 0) :
    ∃ st', apply_velocity_data st (some cr) (some vr) timer? k power =
        .ok (st', [TecCall.readAdvectionData
          (st.mCoords.map (interpAt (cr.map toVec3) (vr.map toVec3)
            (clampK k cr.length) power))
          (timer?.getD st.dt)]) ∧
      st'.plateStep = true ∧
      st'.plateTimer = st.tNow + timer?.getD st.dt := by
  rw [apply_velocity_data_valid st cr vr timer? k power hc hv hlen hne]
  simp only [applyCore]
  rw [if_pos hadv]
  exact ⟨_, rfl, rfl, rfl⟩

/-- Witness for C6, covering both spec instances: with `tNow = 10`,
`dt = 2` and no timer, `plateTimer = 12`; with `tNow = 5` and explicit
`timer = 3`, `plateTimer = 8`. -/
theorem apply_velocity_data_semilagrangian_witness :
    (∃ st', apply_velocity_data stSL (some [[0, 0, 0]]) (some [[1, 2, 3]]) none 3 1 =
        .ok (st', [TecCall.readAdvectionData
          (stSL.mCoords.map (interpAt ([[0, 0, 0]].map toVec3) ([[1, 2, 3]].map toVec3)
            (clampK 3 ([[(0:ℝ), 0, 0]] : List (List ℝ)).length) 1))
          ((none : Option ℝ).getD stSL.dt)]) ∧
      st'.plateStep = true ∧ st'.plateTimer = 12) ∧
    (∃ st', apply_velocity_data stSL5 (some [[0, 0, 0]]) (some [[1, 2, 3]]) (some 3) 3 1 =
        .ok (st', [TecCall.readAdvectionData
          (stSL5.mCoords.map (interpAt ([[0, 0, 0]].map toVec3) ([[1, 2, 3]].map toVec3)
            (clampK 3 ([[(0:ℝ), 0, 0]] : List (List ℝ)).length) 1))
          ((some (3:ℝ)).getD stSL5.dt)]) ∧
      st'.plateStep = true ∧ st'.plateTimer = 8) := by
  constructor
  · obtain ⟨st', h1, h2, h3⟩ := apply_velocity_data_semilagrangian stSL
      [[0, 0, 0]] [[1, 2, 3]] none 3 1 (by decide) (by decide) rfl (by decide) rfl
    exact ⟨st', h1, h2, by rw [h3]; norm_num [stSL]⟩
  · obtain ⟨st', h1, h2, h3⟩ := apply_velocity_data_semilagrangian stSL5
      [[0, 0, 0]] [[1, 2, 3]] (some 3) 3 1 (by decide) (by decide) rfl (by decide) rfl
    exact ⟨st', h1, h2, by rw [h3]; norm_num [stSL5, stSL]⟩

theorem getD_map_range {α : Type} (n : ℕ) (f : ℕ → α) (i : ℕ) (hi : i < n) (d : α) :
    ((List.range n).map f).getD i d = f i := by
  rw [List.getD_eq_getElem?_getD, List.getElem?_map, List.getElem?_range hi]
  rfl

/-- Claim C7: with advection regime `≥ 1`, `apply_velocity_data` invokes
`getfacevelocity` and `_varAdvector` exactly once each, in that order, on
a velocity buffer of `lpoints` rows; on a flat mesh only the two
horizontal components are populated from the local displacement field and
the vertical stays zero, on a non-flat mesh the buffer is the local
displacement field itself. -/
theorem apply_velocity_data_eulerian (st : TecState) (cr vr : List (List ℝ))
    (timer? : Option ℝ) (k : ℤ) (power : ℝ)
    (hc : rows3 cr) (hv : rows3 vr) (hlen : cr.length = vr.length)
    (hne : cr.length ≠ 0) (hadv : st.advscheme ≠ 0)
    (hloc : st.locIDs.length = st.lpoints) :
    ∃ st' nodeVel,
      apply_velocity_data st (some cr) (some vr) timer? k power =
        .ok (st', [TecCall.getfacevelocity st.lpoints nodeVel,
          TecCall.varAdvector]) ∧
      st'.hdisp.length = st.lpoints ∧
      nodeVel.length = st.lpoints ∧
      (st.flatModel = true → ∀ i, i < st.lpoints →
        nodeVel.getD i v0 =
          ⟨(st'.hdisp.getD i v0).x, (st'.hdisp.getD i v0).y, 0⟩) ∧
      (st.flatModel = false → nodeVel = st'.hdisp) := by
  rw [apply_velocity_data_valid st cr vr timer? k power hc hv hlen hne]
  simp only [applyCore]
  rw [if_neg hadv]
  cases hfm : st.flatModel
  · rw [if_neg (by simp [hfm])]
    refine ⟨_, _, rfl, by simpa using hloc, by simpa using hloc, ?_, fun _ => rfl⟩
    exact fun h => absurd h (by simp [hfm])
  · rw [if_pos (by simp [hfm])]
    refine ⟨_, _, rfl, by simpa using hloc, by simp, ?_, ?_⟩
    · intro _ i hi
      exact getD_map_range st.lpoints _ i hi v0
    · exact fun h => absurd h (by simp [hfm])

/-- Witness for C7: the concrete regime-1 flat-mesh state with one local
node. -/
theorem apply_velocity_data_eulerian_witness :
    ∃ st' nodeVel,
      apply_velocity_data stFlat (some [[0, 0, 0]]) (some [[1, 2, 3]]) none 3 1 =
        .ok (st', [TecCall.getfacevelocity stFlat.lpoints nodeVel,
          TecCall.varAdvector]) ∧
      st'.hdisp.length = stFlat.lpoints ∧
      nodeVel.length = stFlat.lpoints ∧
      (stFlat.flatModel = true → ∀ i, i < stFlat.lpoints →
        nodeVel.getD i v0 =
          ⟨(st'.hdisp.getD i v0).x, (st'.hdisp.getD i v0).y, 0⟩) ∧
      (stFlat.flatModel = false → nodeVel = st'.hdisp) :=
  apply_velocity_data_eulerian stFlat [[0, 0, 0]] [[1, 2, 3]] none 3 1
    (by decide) (by decide) rfl (by decide) (by decide) rfl

theorem getD_map_of_lt {α β : Type} (f : α → β) (l : List α) (i : ℕ)
    (hi : i < l.length) (d : β) (d' : α) :
    (l.map f).getD i d = f (l.getD i d') := by
  rw [List.getD_eq_getElem?_getD, List.getElem?_map, List.getElem?_eq_getElem hi,
    List.getD_eq_getElem?_getD, List.getElem?_eq_getElem hi]
  rfl

/-- Claim C2: the scalar interpolation operation
`interpolate_elevation_to_points` (modelled from the spec; only its tests
and callers are among the sources) applies the same validation,
k-clamping and coincidence rule as the vector operation: it fails with
the shape `ValueError` when the query array is not rank-2 with 3
columns, fails with the no-points `ValueError` when there are zero query
points, `k = 0` behaves as `k = 1` and `k` above the sample count
behaves as `k =` sample count, and on valid input it returns one scalar
per query point, a query point coinciding with a mesh node receiving
exactly the elevation of that node. -/
theorem interpolate_elevation_contract (st : TecState) (coords : List (List ℝ))
    (k : ℤ) (power : ℝ) :
    (¬ rows3 coords →
      interpolate_elevation_to_points st coords k power =
        .error (.valueError "src_pts must be of shape (N, 3)")) ∧
    (coords = [] →
      interpolate_elevation_to_points st coords k power =
        .error (.valueError "src_pts contains no points")) ∧
    (interpolate_elevation_to_points st coords 0 power =
      interpolate_elevation_to_points st coords 1 power) ∧
    ((st.mCoords.length : ℤ) < k → st.mCoords.length ≠ 0 →
      interpolate_elevation_to_points st coords k power =
        interpolate_elevation_to_points st coords (st.mCoords.length : ℤ) power) ∧
    (rows3 coords → coords ≠ [] → st.hGlobal.length = st.mCoords.length →
      ∃ res, interpolate_elevation_to_points st coords k power = .ok res ∧
        res.length = coords.length ∧
        ∀ m, m < coords.length → toVec3 (coords.getD m []) ∈ st.mCoords →
          ∃ i, i < st.mCoords.length ∧
            ptAt st.mCoords i = toVec3 (coords.getD m []) ∧
            res.getD m 0 = st.hGlobal.getD i 0) := by
  refine ⟨?_, ?_, ?_, ?_, ?_⟩
  · intro h
    unfold interpolate_elevation_to_points
    rw [if_pos h]
  · intro h
    subst h
    unfold interpolate_elevation_to_points
    rw [if_neg (by decide : ¬¬rows3 ([] : List (List ℝ)))]
    simp
  · unfold interpolate_elevation_to_points
    rw [show clampK 0 st.mCoords.length = clampK 1 st.mCoords.length by
      unfold clampK; omega]
  · intro hk hne
    unfold interpolate_elevation_to_points
    rw [show clampK k st.mCoords.length = clampK (st.mCoords.length : ℤ) st.mCoords.length by
      unfold clampK; omega]
  · intro hr hne hlen
    unfold interpolate_elevation_to_points
    rw [if_neg (not_not_intro hr),
      if_neg (fun h => hne (List.length_eq_zero.mp h))]
    refine ⟨_, rfl, by simp, ?_⟩
    intro m hm hp
    obtain ⟨i, hi, hpt, heq⟩ := interpAt_coincident st.mCoords
      (st.hGlobal.map fun h => ⟨h, 0, 0⟩) (clampK k st.mCoords.length) power
      (toVec3 (coords.getD m [])) (one_le_clampK k st.mCoords.length) hp
    refine ⟨i, hi, hpt, ?_⟩
    have hm2 : m < (coords.map toVec3).length := by simpa using hm
    rw [getD_map_of_lt _ (coords.map toVec3) m hm2 0 v0,
      getD_map_of_lt toVec3 coords m hm v0 [], heq,
      getD_map_of_lt (fun h => (⟨h, 0, 0⟩ : Vec3)) st.hGlobal i
        (by rw [hlen]; exact hi) v0 0]

/-- Witness for C2: on the concrete state (one mesh node at the origin,
elevation 4): a 2-column row raises the shape error, an empty query
array raises the no-points error, `k = 0` equals `k = 1`, and the query
at the origin returns elevation 4 exactly. -/
theorem interpolate_elevation_contract_witness :
    interpolate_elevation_to_points stSL [[1, 2]] 3 1 =
      .error (.valueError "src_pts must be of shape (N, 3)") ∧
    interpolate_elevation_to_points stSL [] 3 1 =
      .error (.valueError "src_pts contains no points") ∧
    interpolate_elevation_to_points stSL [[0, 0, 0]] 0 1 =
      interpolate_elevation_to_points stSL [[0, 0, 0]] 1 1 ∧
    ∃ res, interpolate_elevation_to_points stSL [[0, 0, 0]] 3 1 = .ok res ∧
      res.length = 1 ∧ res.getD 0 0 = 4 := by
  refine ⟨(interpolate_elevation_contract stSL [[1, 2]] 3 1).1 (by decide),
    (interpolate_elevation_contract stSL [] 3 1).2.1 rfl,
    (interpolate_elevation_contract stSL [[0, 0, 0]] 0 1).2.2.1, ?_⟩
  obtain ⟨res, hres, hlen, hcoin⟩ :=
    (interpolate_elevation_contract stSL [[0, 0, 0]] 3 1).2.2.2.2
      (by decide) (List.cons_ne_nil _ _) rfl
  obtain ⟨i, hi, hpt, hval⟩ := hcoin 0 (by norm_num)
    (List.mem_cons_self _ _)
  have hi1 : i < 1 := by simpa [stSL] using hi
  have hi0 : i = 0 := by omega
  subst hi0
  exact ⟨res, hres, by simpa using hlen, by simpa [stSL] using hval⟩

end Gospl
